import Mathlib

/-!
# Verification of the reaching-definitions analysis (angr snapshot)

Shallow embedding of `src/angr/analyses/reaching_definitions.py` and
`src/angr/engines/light/engine.py`.  Python sets become `Finset`s, Python
dicts become functions into `Option`/`Finset`, machine integers are `Int`
with explicit `% 2^bits` masking (Python's `x & ((1 << bits) - 1)` equals
`x % 2^bits` on arbitrary integers), and fallible Python code (raised
exceptions, failed `assert`s) returns `Except PyErr`.

`KeyedRegion` (imported from `angr.keyed_region`), `CodeLocation`
(`angr.analyses.code_location`) and the `ForwardAnalysis` fixpoint driver
(`angr.analyses.forward_analysis`) are not part of the provided sources;
they are modelled from the specification where noted.
-/

namespace RDA

/-- Python exception kinds raised by the embedded code. -/
inductive PyErr
  | typeError
  | keyError
  | assertionError
  | attributeError
  deriving DecidableEq

/-- A minimal fragment of AIL expressions, as far as the handlers under
verification inspect them: `ailment.Expr.Const` and `ailment.Expr.Register`. -/
inductive AilExpr
  | const (value : Int)
  | register (reg_offset : Int) (bits : Nat)
  deriving DecidableEq

/-- Members of a `DataSet` (`DataSet.data` in the source): concrete integers,
Python booleans, the `Undefined` singleton, symbolic `SpOffset` /
`RegisterOffset` values, and `Parameter` wrappers around a `Register` atom or
an `SpOffset` (`Parameter.value` in the source). -/
inductive Value
  | intv (n : Int)
  | boolv (b : Bool)
  | undef
  | spoff (bits : Nat) (offset : Int) (is_base : Bool)
  | regoff (bits : Nat) (reg : Int) (offset : Int)
  | paramReg (reg_offset : Int) (size : Nat)
  | paramSp (bits : Nat) (offset : Int) (is_base : Bool)
  deriving DecidableEq

/-- Python's `isinstance(v, (int, long))`: `True`/`False` are `int`s in
Python, so booleans pass the check as well. -/
def Value.isInt : Value → Bool
  | .intv _ => true
  | .boolv _ => true
  | _ => false

/-- The numeric value of a Python `int`-like object (`True == 1`,
`False == 0`). -/
def Value.toInt : Value → Int
  | .intv n => n
  | .boolv b => if b then 1 else 0
  | _ => 0

/-- `DataSet`: a non-empty Python `set` of values together with a bit width
(`self.data`, `self._bits`; `self._mask = (1 << bits) - 1`).  The
non-emptiness `assert` of the constructor is modelled at the construction
sites that can violate it ([mkDataSet]). -/
structure DataSet where
  data : Finset Value
  bits : Nat
  deriving DecidableEq

/-- The mask `(1 << bits) - 1` held in `DataSet._mask`. -/
def DataSet.mask (d : DataSet) : Int := 2 ^ d.bits - 1

/-- `DataSet.__init__`: `assert type(data) is set; assert len(data) >= 1`.
Constructing a `DataSet` from an empty set raises `AssertionError`. -/
def mkDataSet (data : Finset Value) (bits : Nat) : Except PyErr DataSet :=
  if 1 ≤ data.card then .ok ⟨data, bits⟩ else .error .assertionError

/-- The `tmp &= self._mask` step of `DataSet._bin_op` / `_un_op`: applied
exactly when `isinstance(tmp, (int, long))`; a boolean is thereby coerced to
the integer `0` or `1`.  Python's `&` with the all-ones mask is reduction
modulo `2^bits`. -/
def pymask (bits : Nat) (v : Value) : Value :=
  if v.isInt then .intv (v.toInt % (2 ^ bits : Int)) else v

/-- One element of the Cartesian-product loop of `DataSet._bin_op`: the
`Undefined` identity test on either operand, then the attempted operator
application (`none` models a raised `TypeError`), then the integer mask. -/
def binOpElem (bits : Nat) (op : Value → Value → Option Value)
    (s o : Value) : Value :=
  if s = Value.undef ∨ o = Value.undef then Value.undef
  else
    match op s o with
    | some tmp => pymask bits tmp
    | none => Value.undef

/-- `DataSet._bin_op(self, other, op)`: the result set collects
`binOpElem` over the Cartesian product `self.data × other.data`; the result
width is `self._bits`.  The source takes the Python operator `op` as a
parameter (`operator.add`, `operator.sub`, `operator.lshift`,
`operator.rshift`, `operator.and_`, `operator.xor`, `operator.or_`). -/
def DataSet.bin_op (x y : DataSet) (op : Value → Value → Option Value) :
    DataSet :=
  ⟨(x.data ×ˢ y.data).image (fun p => binOpElem x.bits op p.1 p.2), x.bits⟩

/-- The integer fragment of Python's `operator.add` on `DataSet` members:
two `int`s add as unbounded integers (masking happens afterwards in
`_bin_op`).  Combinations whose Python behaviour is defined outside the
provided sources (`SpOffset.__add__` lives in `angr.engines.light.data`) are
not modelled; `none` stands for a raised `TypeError`, e.g. adding an
`SpOffset` to a `Parameter`. -/
def opAddInt : Value → Value → Option Value
  | .intv a, .intv b => some (.intv (a + b))
  | _, _ => none

/-- Modelled from the spec: `CodeLocation` (`angr.analyses.code_location` is
not among the provided sources) — `(block_addr, stmt_idx, ins_addr?)`, with a
distinguished external location (`ExternalCodeLocation`, constructed as
`CodeLocation(0, 0)`). -/
structure CodeLoc where
  block_addr : Int
  stmt_idx : Int
  ins_addr : Option Int
  is_external : Bool
  deriving DecidableEq

/-- `ExternalCodeLocation()`: the sentinel for values defined before the
analysed region (`SimEngineRD._external_codeloc`). -/
def externalCodeloc : CodeLoc := ⟨0, 0, none, true⟩

/-- The `Atom` variants `Tmp(tmp_idx)`, `Register(reg_offset, size)` and
`MemoryLocation(addr, size)`; sizes are in bytes.  `Parameter` atoms appear
in this development only as `DataSet` members ([Value.paramReg] /
[Value.paramSp]). -/
inductive Atom
  | tmp (tmp_idx : Nat)
  | reg (reg_offset : Int) (size : Nat)
  | mem (addr : Int) (size : Nat)
  deriving DecidableEq

/-- `Definition(atom, codeloc, data)`; equality is structural over all three
fields (`Definition.__eq__`). -/
structure Definition where
  atom : Atom
  codeloc : CodeLoc
  data : DataSet
  deriving DecidableEq

/-- `Definition.offset`: the atom's register offset or memory address.  The
source raises `ValueError` on any other atom; this embedding is only applied
to Register and MemoryLocation definitions (as in the source's call sites)
and gives the unreachable Tmp branch the value `0`. -/
def Definition.offset : Definition → Int
  | ⟨.reg o _, _, _⟩ => o
  | ⟨.mem a _, _, _⟩ => a
  | ⟨.tmp _, _, _⟩ => 0

/-- `Definition.size`, with the same caveat as [Definition.offset]. -/
def Definition.size : Definition → Nat
  | ⟨.reg _ s, _, _⟩ => s
  | ⟨.mem _ s, _, _⟩ => s
  | ⟨.tmp _, _, _⟩ => 0

/-- `Definition.__init__` performs `assert type(data) is DataSet`; call
sites may pass arbitrary Python objects for `data` (notably
`SimEngineRD._ail_handle_Register` passes the AIL expression itself), so the
`data` argument of the definition-creating state operations is this sum. -/
inductive PyData
  | ds (d : DataSet)
  | expr (e : AilExpr)
  deriving DecidableEq

/-- `Definition(atom, code_loc, data)` including the constructor's
`assert type(data) is DataSet`. -/
def Definition.make (atom : Atom) (codeloc : CodeLoc) (data : PyData) :
    Except PyErr Definition :=
  match data with
  | .ds d => .ok ⟨atom, codeloc, d⟩
  | .expr _ => .error .assertionError

/-- An entry of a `KeyedRegion`: an object stored over the byte range
`[off, off + size)`. -/
structure KREntry where
  off : Int
  size : Nat
  obj : Definition
  deriving DecidableEq

/-- Modelled from the spec: `KeyedRegion` (`angr.keyed_region` is not among
the provided sources) — "an ordered map from integer offsets to one or more
stored objects, each object carrying its own size in bytes" (§3, §4.1),
represented as the set of its sized entries. -/
structure KeyedRegion where
  entries : Finset KREntry
  deriving DecidableEq

/-- Whether the entry `e` is fully covered by the range
`[off, off + size)` (§4.1: such prior entries are replaced by
`set_object`). -/
def KREntry.coveredBy (e : KREntry) (off : Int) (size : Nat) : Prop :=
  off ≤ e.off ∧ e.off + e.size ≤ off + size

instance (e : KREntry) (off : Int) (size : Nat) :
    Decidable (e.coveredBy off size) := by
  unfold KREntry.coveredBy; infer_instance

/-- Modelled from the spec (§4.1): `set_object(offset, obj, size)` installs
`obj` over `[offset, offset + size)`; prior entries fully covered by the new
range are replaced, partially overlapping entries are left in place. -/
def KeyedRegion.set_object (kr : KeyedRegion) (off : Int) (obj : Definition)
    (size : Nat) : KeyedRegion :=
  ⟨insert ⟨off, size, obj⟩
    (kr.entries.filter (fun e => ¬ e.coveredBy off size))⟩

/-- Modelled from the spec (§4.1): `get_objects_by_offset(offset)` returns
the set of objects whose extent contains `offset`. -/
def KeyedRegion.get_objects_by_offset (kr : KeyedRegion) (off : Int) :
    Finset Definition :=
  (kr.entries.filter (fun e => e.off ≤ off ∧ off < e.off + e.size)).image
    KREntry.obj

/-- Modelled from the spec (§4.1): `merge(other)` is the pointwise union —
the result at any offset is the union of the two sides' object sets. -/
def KeyedRegion.merge (kr other : KeyedRegion) : KeyedRegion :=
  ⟨kr.entries ∪ other.entries⟩

/-- Modelled from the spec (§4.1): `copy()` is an independent deep copy; in
the value-typed embedding it is the identity. -/
def KeyedRegion.copy (kr : KeyedRegion) : KeyedRegion := kr

/-- `Uses`: `_uses_by_definition` (a `defaultdict(set)` from definitions to
the code locations that consumed them, represented as the corresponding
relation — empty value sets never arise in the source) and `_current_uses`
(a `KeyedRegion` of currently live uses). -/
structure Uses where
  uses_by_definition : Finset (Definition × CodeLoc)
  current_uses : KeyedRegion
  deriving DecidableEq

/-- `Uses.add_use(definition, codeloc)`. -/
def Uses.add_use (u : Uses) (defn : Definition) (codeloc : CodeLoc) : Uses :=
  ⟨insert (defn, codeloc) u.uses_by_definition,
   u.current_uses.set_object defn.offset defn defn.size⟩

/-- `Uses.get_uses(definition)`. -/
def Uses.get_uses (u : Uses) (defn : Definition) : Finset CodeLoc :=
  (u.uses_by_definition.filter (fun p => p.1 = defn)).image Prod.snd

/-- `Uses.get_current_uses(definition)`: union of
`_current_uses.get_objects_by_offset(offset + pos)` for
`pos in xrange(definition.size)`. -/
def Uses.get_current_uses (u : Uses) (defn : Definition) :
    Finset Definition :=
  (Finset.range defn.size).biUnion
    (fun pos => u.current_uses.get_objects_by_offset (defn.offset + pos))

/-- `Uses.merge(other)`: key-wise union of `_uses_by_definition` (assign the
missing keys, `|=` the common ones — i.e. relation union) and
`_current_uses.merge`. -/
def Uses.merge (u other : Uses) : Uses :=
  ⟨u.uses_by_definition ∪ other.uses_by_definition,
   u.current_uses.merge other.current_uses⟩

/-- The data fields of a `ReachingDefinitions` state.  The constructor's
`arch`, `loader` and `analysis` hand-backs are ambient context shared by
every copy (`copy()` passes them through unchanged) and are kept outside the
state.  `tmp_definitions` is the dict `tmp_idx -> (atom, code_loc)`;
`tmp_uses` is the `defaultdict(set)` `tmp_idx -> {(code_loc, current_def)}`. -/
structure RDState where
  track_tmps : Bool
  register_definitions : KeyedRegion
  memory_definitions : KeyedRegion
  tmp_definitions : Nat → Option (Atom × CodeLoc)
  register_uses : Uses
  memory_uses : Uses
  tmp_uses : Nat → Finset (CodeLoc × (Atom × CodeLoc))
  dead_virgin_definitions : Finset Definition

/-- `ReachingDefinitions.copy()` in the value-typed embedding: each
substructure's `copy()` yields an equal value.  (The reference-sharing that
the Python shallow copies introduce is studied separately in the `Ref`
model below.) -/
def RDState.copy (s : RDState) : RDState := s

/-- The body of the `for other in others` loop of
`ReachingDefinitions.merge`: union the five substructures; temporaries are
not merged. -/
def RDState.merge1 (s other : RDState) : RDState :=
  { s with
    register_definitions := s.register_definitions.merge other.register_definitions
    memory_definitions := s.memory_definitions.merge other.memory_definitions
    register_uses := s.register_uses.merge other.register_uses
    memory_uses := s.memory_uses.merge other.memory_uses
    dead_virgin_definitions :=
      s.dead_virgin_definitions ∪ other.dead_virgin_definitions }

/-- `ReachingDefinitions.merge(*others)`: copy `self`, then fold the loop
body over the other states. -/
def RDState.merge (s : RDState) (others : List RDState) : RDState :=
  others.foldl RDState.merge1 s.copy

/-- `ReachingDefinitions._kill_and_add_register_definition`: read the
current definitions at the register offset; if some exist and none of them
has current uses, move them all into `_dead_virgin_definitions`; then
install the new definition via `set_object`. -/
def RDState.kill_and_add_register_definition (s : RDState) (reg_offset : Int)
    (size : Nat) (defn : Definition) : RDState :=
  let current_defs := s.register_definitions.get_objects_by_offset reg_offset
  let uses := current_defs.biUnion (fun d => s.register_uses.get_current_uses d)
  let s₁ :=
    if current_defs.Nonempty ∧ uses = ∅ then
      { s with dead_virgin_definitions :=
          s.dead_virgin_definitions ∪ current_defs }
    else s
  { s₁ with register_definitions :=
      s₁.register_definitions.set_object reg_offset defn size }

/-- `ReachingDefinitions._kill_and_add_memory_definition`: directly install
(no dead-virgin tracking). -/
def RDState.kill_and_add_memory_definition (s : RDState) (addr : Int)
    (size : Nat) (defn : Definition) : RDState :=
  { s with memory_definitions := s.memory_definitions.set_object addr defn size }

/-- `ReachingDefinitions._add_tmp_definition`:
`self.tmp_definitions[atom.tmp_idx] = (atom, code_loc)`. -/
def RDState.add_tmp_definition (s : RDState) (tmp_idx : Nat) (atom : Atom)
    (code_loc : CodeLoc) : RDState :=
  { s with tmp_definitions :=
      fun k => if k = tmp_idx then some (atom, code_loc) else s.tmp_definitions k }

/-- `ReachingDefinitions.kill_and_add_definition(atom, code_loc, data)`:
dispatch on the atom type.  The Register and MemoryLocation branches
construct a `Definition` (whose `assert type(data) is DataSet` can fail);
the Tmp branch never touches `data`. -/
def RDState.kill_and_add_definition (s : RDState) (atom : Atom)
    (code_loc : CodeLoc) (data : PyData) : Except PyErr RDState :=
  match atom with
  | .reg reg_offset size => do
      let defn ← Definition.make (.reg reg_offset size) code_loc data
      .ok (s.kill_and_add_register_definition reg_offset size defn)
  | .mem addr size => do
      let defn ← Definition.make (.mem addr size) code_loc data
      .ok (s.kill_and_add_memory_definition addr size defn)
  | .tmp tmp_idx =>
      .ok (s.add_tmp_definition tmp_idx (.tmp tmp_idx) code_loc)

/-- `ReachingDefinitions.kill_definitions(atom, code_loc, data)`: despite
its name it only delegates to `kill_and_add_definition` ("overwrite existing
definitions w.r.t 'atom' with a dummy definition instance").  Its `data`
parameter has no default value. -/
def RDState.kill_definitions (s : RDState) (atom : Atom) (code_loc : CodeLoc)
    (data : PyData) : Except PyErr RDState :=
  s.kill_and_add_definition atom code_loc data

/-- The cumulative effect of the
`for current_def in current_defs: uses.add_use(current_def, code_loc)` loops
of `_add_register_use` / `_add_memory_use`.  Python iterates the set
`current_defs` in unspecified order, so the loop is rendered
order-independently: `_uses_by_definition` gains `(d, code_loc)` for every
`d`, and in `_current_uses` an existing entry survives iff no new entry's
range fully covers it while every new entry is installed (when one new range
fully covers another — which the source resolves by its arbitrary iteration
order — this rendering keeps both). -/
def Uses.add_uses_for (u : Uses) (defs : Finset Definition)
    (code_loc : CodeLoc) : Uses :=
  ⟨u.uses_by_definition ∪ defs ×ˢ {code_loc},
   ⟨(u.current_uses.entries.filter
      (fun e => ¬ ∃ d ∈ defs, e.coveredBy d.offset d.size)) ∪
    defs.image (fun d => ⟨d.offset, d.size, d⟩)⟩⟩

/-- `ReachingDefinitions._add_register_use`: record a use of every current
definition covering the register offset. -/
def RDState.add_register_use (s : RDState) (reg_offset : Int)
    (code_loc : CodeLoc) : RDState :=
  let current_defs := s.register_definitions.get_objects_by_offset reg_offset
  { s with register_uses :=
      s.register_uses.add_uses_for current_defs code_loc }

/-- `ReachingDefinitions._add_memory_use`. -/
def RDState.add_memory_use (s : RDState) (addr : Int) (code_loc : CodeLoc) :
    RDState :=
  let current_defs := s.memory_definitions.get_objects_by_offset addr
  { s with memory_uses :=
      s.memory_uses.add_uses_for current_defs code_loc }

/-- `ReachingDefinitions._add_tmp_use`:
`current_def = self.tmp_definitions[atom.tmp_idx]` raises `KeyError` when
the temporary has no definition; otherwise
`self.tmp_uses[atom.tmp_idx].add((code_loc, current_def))`. -/
def RDState.add_tmp_use (s : RDState) (tmp_idx : Nat) (code_loc : CodeLoc) :
    Except PyErr RDState :=
  match s.tmp_definitions tmp_idx with
  | none => .error .keyError
  | some current_def =>
      .ok { s with tmp_uses :=
        fun k => if k = tmp_idx then insert (code_loc, current_def) (s.tmp_uses k)
                 else s.tmp_uses k }

/-- `ReachingDefinitions.add_use(atom, code_loc)`: dispatch on the atom
type (the Register and MemoryLocation branches cannot raise). -/
def RDState.add_use (s : RDState) (atom : Atom) (code_loc : CodeLoc) :
    Except PyErr RDState :=
  match atom with
  | .reg reg_offset _ => .ok (s.add_register_use reg_offset code_loc)
  | .mem addr _ => .ok (s.add_memory_use addr code_loc)
  | .tmp tmp_idx => s.add_tmp_use tmp_idx code_loc

/-! ## VEX transfer rules under verification -/

/-- One iteration of the `for a in addr` loop of `SimEngineRD._handle_Store`:
an `Undefined` address is logged and skipped; a concrete address installs a
`MemoryLocation(a, size)` definition with the evaluated data through
`kill_and_add_definition` (which, for a MemoryLocation atom and a genuine
`DataSet`, is `_kill_and_add_memory_definition`; see
[kill_and_add_definition_mem_ds]).  Symbolic address values (`SpOffset`,
`Parameter`, …), for which the source would build a `MemoryLocation` with a
non-integer address, lie outside the integer-keyed region model and leave
the state unchanged here; the Store claims quantify over address sets of
concrete integers and `Undefined` only. -/
def storeStep (code_loc : CodeLoc) (size : Nat) (data : DataSet)
    (s : RDState) : Value → RDState
  | .undef => s
  | .intv addr =>
      s.kill_and_add_memory_definition addr size ⟨.mem addr size, code_loc, data⟩
  | _ => s

/-- Full coverage between equal-size ranges forces equal offsets: the
reason "different addresses are not killed by a subsequent iteration"
(comment in `_handle_Store`). -/
theorem coveredBy_same_size {o1 o2 : Int} {sz : Nat} {d : Definition} :
    KREntry.coveredBy ⟨o1, sz, d⟩ o2 sz ↔ o1 = o2 := by
  unfold KREntry.coveredBy
  dsimp only
  omega

/-- Two `set_object` installs of the same size at different offsets
commute. -/
theorem set_object_comm (kr : KeyedRegion) {o1 o2 : Int} (sz : Nat)
    (d1 d2 : Definition) (h : o1 ≠ o2) :
    (kr.set_object o1 d1 sz).set_object o2 d2 sz =
      (kr.set_object o2 d2 sz).set_object o1 d1 sz := by
  unfold KeyedRegion.set_object
  have h1 : ¬ KREntry.coveredBy ⟨o1, sz, d1⟩ o2 sz := by
    rw [coveredBy_same_size]; exact h
  have h2 : ¬ KREntry.coveredBy ⟨o2, sz, d2⟩ o1 sz := by
    rw [coveredBy_same_size]; exact fun hh => h hh.symm
  simp only [KeyedRegion.mk.injEq, Finset.filter_insert, h1, h2,
    not_false_eq_true, if_true, ite_true]
  rw [Finset.Insert.comm, Finset.filter_comm]

/-- The body of the Store loop is right-commutative, so the set-iteration
order Python happens to use does not affect the final state. -/
instance (code_loc : CodeLoc) (size : Nat) (data : DataSet) :
    RightCommutative (storeStep code_loc size data) := by
  refine ⟨fun s v1 v2 => ?_⟩
  cases v1 <;> cases v2 <;> simp only [storeStep]
  rename_i a1 a2
  by_cases hv : a1 = a2
  · subst hv; rfl
  · simp only [RDState.kill_and_add_memory_definition]
    exact congrArg (fun X => { s with memory_definitions := X })
      (set_object_comm _ size _ _ hv)

/-- `SimEngineRD._handle_Store`: fold the loop body over the evaluated
address set (Python iterates the set in unspecified order; the fold is
well-defined by the loop body's right-commutativity). -/
def handle_Store (s : RDState) (code_loc : CodeLoc) (addr : DataSet)
    (size : Nat) (data : DataSet) : RDState :=
  Multiset.foldl (storeStep code_loc size data) s addr.data.val

/-! ## VEX comparison handlers -/

/-- The Python value returned by `_handle_CmpEQ` / `_handle_CmpNE` /
`_handle_CmpLT` / `_handle_CmpORD`: either a raw Python `bool` (the
`return e0 == e1` path) or a `DataSet`. -/
inductive CmpResult
  | bool (b : Bool)
  | ds (d : DataSet)
  deriving DecidableEq

/-- Whether a comparison handler's result is a `DataSet`. -/
def CmpResult.isDS : CmpResult → Bool
  | .bool _ => false
  | .ds _ => true

/-- `DataSet.get_first_element`: `next(iter(self.data))`.  The handlers only
invoke it on singletons (`len(...) == 1`), where the chosen element is
determined; the proof argument records that guard. -/
def DataSet.get_first_element (d : DataSet) (h : d.data.card = 1) : Value :=
  d.data.choose (fun _ => True) (by
    obtain ⟨a, ha⟩ := Finset.card_eq_one.mp h
    refine ⟨a, ⟨by simp [ha], trivial⟩, ?_⟩
    intro b hb
    simpa [ha] using hb.1)

/-- The shared `{True, False}` fallback of the comparison handlers
("Comparison of multiple values / different types"). -/
def cmpFallback (result_size : Nat) : CmpResult :=
  .ds ⟨{.boolv true, .boolv false}, result_size⟩

/-- `SimEngineRD._handle_CmpEQ` on the two evaluated operands: when both are
singletons whose elements pass `isinstance(_, (int, long))` (Python booleans
included), `return e0 == e1` yields a raw Python bool; every other case
falls through to `DataSet({True, False}, expr.result_size(...))`. -/
def handle_CmpEQ (expr_0 expr_1 : DataSet) (result_size : Nat) : CmpResult :=
  if h : expr_0.data.card = 1 ∧ expr_1.data.card = 1 then
    let e0 := expr_0.get_first_element h.1
    let e1 := expr_1.get_first_element h.2
    if e0.isInt ∧ e1.isInt then .bool (decide (e0.toInt = e1.toInt))
    else cmpFallback result_size
  else cmpFallback result_size

/-- `SimEngineRD._handle_CmpNE` (`return e0 != e1`). -/
def handle_CmpNE (expr_0 expr_1 : DataSet) (result_size : Nat) : CmpResult :=
  if h : expr_0.data.card = 1 ∧ expr_1.data.card = 1 then
    let e0 := expr_0.get_first_element h.1
    let e1 := expr_1.get_first_element h.2
    if e0.isInt ∧ e1.isInt then .bool (decide (e0.toInt ≠ e1.toInt))
    else cmpFallback result_size
  else cmpFallback result_size

/-- `SimEngineRD._handle_CmpLT` (`return e0 < e1`). -/
def handle_CmpLT (expr_0 expr_1 : DataSet) (result_size : Nat) : CmpResult :=
  if h : expr_0.data.card = 1 ∧ expr_1.data.card = 1 then
    let e0 := expr_0.get_first_element h.1
    let e1 := expr_1.get_first_element h.2
    if e0.isInt ∧ e1.isInt then .bool (decide (e0.toInt < e1.toInt))
    else cmpFallback result_size
  else cmpFallback result_size

/-- `SimEngineRD._handle_CmpORD` (PPC): singleton integers yield the ordered
tri-code `DataSet({0x08})` / `DataSet({0x04})` / `DataSet({0x02})` for
less / greater / equal; otherwise the `{True, False}` fallback. -/
def handle_CmpORD (expr_0 expr_1 : DataSet) (result_size : Nat) : CmpResult :=
  if h : expr_0.data.card = 1 ∧ expr_1.data.card = 1 then
    let e0 := expr_0.get_first_element h.1
    let e1 := expr_1.get_first_element h.2
    if e0.isInt ∧ e1.isInt then
      if e0.toInt < e1.toInt then .ds ⟨{.intv 0x08}, result_size⟩
      else if e0.toInt > e1.toInt then .ds ⟨{.intv 0x04}, result_size⟩
      else .ds ⟨{.intv 0x02}, result_size⟩
    else cmpFallback result_size
  else cmpFallback result_size

/-! ## AIL transfer rules under verification -/

/-- The architecture descriptor fields consumed by the embedded AIL
handlers (§6). -/
structure Arch where
  bits : Nat
  sp_offset : Int
  bp_offset : Int
  ip_offset : Int

/-- The Python value an AIL expression handler returns: the RD engine's
`_ail_handle_Const` returns the AIL expression object itself, and
`_ail_handle_Register` returns a raw `SpOffset` for the stack / frame
pointer. -/
inductive AilVal
  | aexpr (e : AilExpr)
  | sval (v : Value)
  deriving DecidableEq

/-- `SimEngineRD._ail_handle_Register(expr)`:

* `self.state.add_use(Register(reg_offset, bits / 8), self._codeloc())`;
* the stack pointer returns `SpOffset(bits, 0)`, the frame pointer
  `SpOffset(bits, 0, is_base=True)`;
* otherwise the handler executes `data = DataSet(set(), bits)`, which
  violates `DataSet.__init__`'s `assert len(data) >= 1` (an empty Python
  `set()` is passed) and raises `AssertionError`; the surrounding
  `try/except` only catches `KeyError`, so the exception propagates.  The
  continuation is embedded for completeness: with no current definitions it
  would pass the AIL expression itself as `data` to
  `kill_and_add_definition` (rejected by `Definition.__init__`'s
  `assert type(data) is DataSet`), and it ends with `data.compact()`,
  a method `DataSet` does not define (`AttributeError`). -/
def ail_handle_Register (arch : Arch) (s : RDState) (code_loc : CodeLoc)
    (reg_offset : Int) (bits : Nat) : Except PyErr (RDState × AilVal) := do
  let s ← s.add_use (.reg reg_offset (bits / 8)) code_loc
  if reg_offset = arch.sp_offset then
    .ok (s, .sval (.spoff bits 0 false))
  else if reg_offset = arch.bp_offset then
    .ok (s, .sval (.spoff bits 0 true))
  else do
    let _data ← mkDataSet ∅ bits
    let defs := s.register_definitions.get_objects_by_offset reg_offset
    let s ←
      if defs = ∅ then
        s.kill_and_add_definition (.reg reg_offset (bits / 8)) externalCodeloc
          (.expr (.register reg_offset bits))
      else .ok s
    let _ := s
    throw .attributeError

/-- Evaluation of the AIL expression fragments reached by the embedded
statement handlers (`SimEngineLightAIL._expr` dispatch): the RD engine's
`_ail_handle_Const` returns the expression itself; `Register` is
[ail_handle_Register]. -/
def ail_expr_eval (arch : Arch) (s : RDState) (code_loc : CodeLoc) :
    AilExpr → Except PyErr (RDState × AilVal)
  | .const n => .ok (s, .aexpr (.const n))
  | .register reg_offset bits =>
      ail_handle_Register arch s code_loc reg_offset bits

/-- The calling-convention contract consumed by `_ail_handle_Call` (§6):
`CALLER_SAVED_REGS` is a list of register names. -/
structure CallingConv where
  CALLER_SAVED_REGS : List String

/-- `SimEngineRD._ail_handle_Call(stmt)`: evaluate the call target, then
`self.state.kill_definitions(ip, self._codeloc())`.  `kill_definitions`
declares a mandatory third parameter `data`
(reaching_definitions.py:473) but this call site passes only two arguments
(reaching_definitions.py:951), so Python raises
`TypeError: kill_definitions() takes exactly 4 arguments (3 given)` before
any caller-saved register is touched; the argument-evaluation loop, the
caller-saved-register kills and the `cc_op`/`cc_dep1`/`cc_dep2`/`cc_ndep`
kills that follow in the source are unreachable. -/
def ail_handle_Call (arch : Arch) (s : RDState) (code_loc : CodeLoc)
    (target : AilExpr) (args : List AilExpr) (cc : Option CallingConv) :
    Except PyErr RDState := do
  let (s, _target) ← ail_expr_eval arch s code_loc target
  let _ip := Atom.reg arch.ip_offset (arch.bits / 8)
  let _ := s
  let _ := args
  let _ := cc
  throw .typeError

/-! ## The fixpoint driver

`ForwardAnalysis` (`angr.analyses.forward_analysis`) is not among the
provided sources; the worklist loop is modelled from the spec (§2, §4.5).
The per-node counter logic of `ReachingDefinitionAnalysis._run_on_node` is
embedded from the source. -/

/-- Modelled from the spec (§4.5): the driver's bookkeeping — the block set
of the analysed function, the successor map, `max_iterations`, the
`_node_iterations` counters, the set of nodes `_run_on_node` has reported as
no longer revisitable, the pending worklist, and the total number of
`_run_on_node` calls performed (the quantity the termination claim bounds).
Abstract states are elided: whether a node's out-state changed only decides
whether successors are rescheduled, and the model reschedules them
unconditionally, which over-approximates the set of visits the real driver
performs. -/
structure DriverState where
  nodes : Finset Nat
  succs : Nat → List Nat
  max_iterations : Nat
  node_iterations : Nat → Nat
  no_revisit : Finset Nat
  worklist : List Nat
  calls : Nat

/-- `ReachingDefinitionAnalysis._run_on_node` (counter logic):
`self._node_iterations[block_key] += 1`, then return `True` (revisitable)
iff the incremented counter is still `< self._max_iterations`. -/
def runOnNode (d : DriverState) (n : Nat) : Bool × DriverState :=
  let it := d.node_iterations n + 1
  (decide (it < d.max_iterations),
   { d with node_iterations := Function.update d.node_iterations n it,
            calls := d.calls + 1 })

/-- Modelled from the spec (§2, §4.5): one step of the worklist driver.
Pop a node; skip it when it is unknown or was reported non-revisitable;
otherwise call `_run_on_node` and, if it still allows revisits, reschedule
the successors, else record the node as exhausted. -/
def driverStep (d : DriverState) : DriverState :=
  match d.worklist with
  | [] => d
  | n :: rest =>
      if n ∈ d.no_revisit ∨ n ∉ d.nodes then { d with worklist := rest }
      else
        let p := runOnNode d n
        if p.1 then { p.2 with worklist := rest ++ d.succs n }
        else { p.2 with worklist := rest, no_revisit := insert n d.no_revisit }

/-- Iterate the driver; on an empty worklist the state is fixed, so any
sufficiently large fuel reaches the final state and the call bound must
hold at every fuel. -/
def driverRun : Nat → DriverState → DriverState
  | 0, d => d
  | fuel + 1, d => driverRun fuel (driverStep d)

/-- An initial driver state over a block set: fresh counters, nothing
exhausted, no calls performed yet. -/
def driverInit (nodes : Finset Nat) (succs : Nat → List Nat)
    (max_iterations : Nat) (worklist : List Nat) : DriverState :=
  ⟨nodes, succs, max_iterations, fun _ => 0, ∅, worklist, 0⟩

/-- The driver invariant: the call total equals the sum of the per-node
counters, and a node not yet reported non-revisitable has a counter still
below the cap (hence every counter is at most the cap). -/
def DriverInv (d : DriverState) : Prop :=
  d.calls = ∑ n ∈ d.nodes, d.node_iterations n ∧
  ∀ n ∈ d.nodes, d.node_iterations n ≤ d.max_iterations ∧
    (n ∉ d.no_revisit → d.node_iterations n < d.max_iterations)

/-! ## Reference-semantics model of `copy()`

The value-typed embedding above cannot express the sharing Python's shallow
copies introduce, so the copy-independence claim is settled against this
refined model: the sets stored in `Uses._uses_by_definition` (a
`defaultdict(set)`) live in an explicit heap and the dict maps definitions
to references. -/

/-- A heap of Python `set`-of-code-location objects, addressed by
allocation index. -/
structure SetHeap where
  next : Nat
  store : Nat → Finset CodeLoc

/-- Allocate a fresh set object. -/
def SetHeap.alloc (h : SetHeap) (v : Finset CodeLoc) : Nat × SetHeap :=
  (h.next, ⟨h.next + 1, Function.update h.store h.next v⟩)

/-- Mutate the set object behind reference `r` in place. -/
def SetHeap.write (h : SetHeap) (r : Nat) (v : Finset CodeLoc) : SetHeap :=
  ⟨h.next, Function.update h.store r v⟩

/-- Lookup in the dict `_uses_by_definition` (definition → set reference). -/
def alookup : List (Definition × Nat) → Definition → Option Nat
  | [], _ => none
  | (k, r) :: rest, d => if k = d then some r else alookup rest d

/-- `Uses` under reference semantics: `_uses_by_definition` maps each
definition to a reference to a heap-allocated set of code locations;
`_current_uses` is the (value-typed, deep-copied) KeyedRegion. -/
structure UsesRef where
  uses_by_definition : List (Definition × Nat)
  current_uses : KeyedRegion

/-- All set references of a `Uses` dict are allocated in the heap. -/
def UsesRef.validIn (u : UsesRef) (h : SetHeap) : Prop :=
  ∀ p ∈ u.uses_by_definition, p.2 < h.next

instance (u : UsesRef) (h : SetHeap) : Decidable (u.validIn h) := by
  unfold UsesRef.validIn; infer_instance

/-- `Uses.copy()`:
`u._uses_by_definition = self._uses_by_definition.copy()` is a *shallow*
dict copy — the key-to-object table is duplicated, but the set objects the
values refer to are shared with the original; `_current_uses.copy()` is the
KeyedRegion's independent copy. -/
def UsesRef.copy (u : UsesRef) : UsesRef :=
  ⟨u.uses_by_definition, u.current_uses.copy⟩

/-- `Uses.add_use(definition, codeloc)` under reference semantics:
`self._uses_by_definition[definition].add(codeloc)` on a `defaultdict(set)`
materialises a fresh empty set for a missing key and then mutates it; for a
present key it mutates the referenced — possibly shared — set object in
place.  Then `_current_uses.set_object(...)`. -/
def UsesRef.add_use (h : SetHeap) (u : UsesRef) (defn : Definition)
    (codeloc : CodeLoc) : SetHeap × UsesRef :=
  match alookup u.uses_by_definition defn with
  | some r =>
      (h.write r (insert codeloc (h.store r)),
       ⟨u.uses_by_definition,
        u.current_uses.set_object defn.offset defn defn.size⟩)
  | none =>
      let a := h.alloc {codeloc}
      (a.2,
       ⟨(defn, a.1) :: u.uses_by_definition,
        u.current_uses.set_object defn.offset defn defn.size⟩)

/-- `Uses.get_uses(definition)` under reference semantics. -/
def UsesRef.get_uses (h : SetHeap) (u : UsesRef) (defn : Definition) :
    Finset CodeLoc :=
  match alookup u.uses_by_definition defn with
  | some r => h.store r
  | none => ∅

/-- `ReachingDefinitions` under reference semantics, as far as
`copy()`-independence is concerned.  `tmp_uses` (also a shallow-copied
`defaultdict(set)` in the source, with the same sharing behaviour) and the
remaining fields are kept value-typed; the claim is settled through
`register_uses`. -/
structure RDStateRef where
  track_tmps : Bool
  register_definitions : KeyedRegion
  memory_definitions : KeyedRegion
  tmp_definitions : Nat → Option (Atom × CodeLoc)
  register_uses : UsesRef
  memory_uses : UsesRef
  tmp_uses : Nat → Finset (CodeLoc × (Atom × CodeLoc))
  dead_virgin_definitions : Finset Definition

/-- `ReachingDefinitions.copy()` under reference semantics: every
substructure's `copy()` is taken, but [UsesRef.copy] shares the use-site
set objects, and no heap allocation happens. -/
def RDStateRef.copy (s : RDStateRef) : RDStateRef :=
  { s with
    register_definitions := s.register_definitions.copy
    memory_definitions := s.memory_definitions.copy
    register_uses := s.register_uses.copy
    memory_uses := s.memory_uses.copy }

/-! ## Concrete fixtures shared by witnesses and counterexamples -/

/-- A code location inside an analysed block. -/
def cl0 : CodeLoc := ⟨0x400000, 0, none, false⟩

/-- A second code location. -/
def clA : CodeLoc := ⟨0x400000, 1, none, false⟩

/-- A third code location. -/
def clB : CodeLoc := ⟨0x400000, 2, none, false⟩

/-- The §8 test architecture: 64 bits, `sp_offset = 48`; frame pointer and
instruction pointer at the amd64 offsets. -/
def arch0 : Arch := ⟨64, 48, 56, 184⟩

/-- An analysis state with no definitions, uses or temporaries. -/
def state0 : RDState :=
  ⟨false, ⟨∅⟩, ⟨∅⟩, fun _ => none, ⟨∅, ⟨∅⟩⟩, ⟨∅, ⟨∅⟩⟩, fun _ => ∅, ∅⟩

/-- [state0] with the single temporary `t0` defined at [cl0]. -/
def stateT : RDState :=
  { state0 with tmp_definitions :=
      fun k => if k = 0 then some (.tmp 0, cl0) else none }

/-- A concrete register definition (rax-like offset 16, 8 bytes). -/
def d0 : Definition := ⟨.reg 16 8, cl0, ⟨{.intv 1}, 64⟩⟩

/-- A heap holding one set object `{clA}` at reference `0`. -/
def heap0 : SetHeap := ⟨1, fun r => if r = 0 then {clA} else ∅⟩

/-- A `Uses` whose dict maps [d0] to the shared set object `0`. -/
def usesR0 : UsesRef := ⟨[(d0, 0)], ⟨∅⟩⟩

/-- An empty reference-semantics `Uses`. -/
def emptyUsesRef : UsesRef := ⟨[], ⟨∅⟩⟩

/-- A reference-semantics state whose register uses are [usesR0]. -/
def stateRef0 : RDStateRef :=
  ⟨false, ⟨∅⟩, ⟨∅⟩, fun _ => none, usesR0, emptyUsesRef, fun _ => ∅, ∅⟩

/-! # Theorems -/

/-! ## C1: `DataSet._bin_op` pointwise behaviour -/

/-- C1 (confirmed): for every member pair `(s, o)` of the Cartesian product
of two DataSets, `_bin_op` puts `Undefined` in the result when either
member is `Undefined`; puts the masked integer result in when both members
are integers and the operator returns an integer; and puts `Undefined` in
when applying the operator raises `TypeError` — returning normally (the
embedding is a total function). -/
theorem c1_bin_op_pointwise (x y : DataSet) (op : Value → Value → Option Value)
    (s o : Value) (hs : s ∈ x.data) (ho : o ∈ y.data) :
    ((s = Value.undef ∨ o = Value.undef) →
      Value.undef ∈ (x.bin_op y op).data) ∧
    (∀ a b c : Int, s = .intv a → o = .intv b → op s o = some (.intv c) →
      Value.intv (c % (2 ^ x.bits : Int)) ∈ (x.bin_op y op).data) ∧
    (op s o = none → Value.undef ∈ (x.bin_op y op).data) := by
  have hpair : (s, o) ∈ x.data ×ˢ y.data := Finset.mk_mem_product hs ho
  refine ⟨?_, ?_, ?_⟩
  · intro h
    exact Finset.mem_image.mpr ⟨(s, o), hpair, by simp [binOpElem, h]⟩
  · rintro a b c rfl rfl hop
    refine Finset.mem_image.mpr ⟨(.intv a, .intv b), hpair, ?_⟩
    simp [binOpElem, hop, pymask, Value.isInt, Value.toInt]
  · intro hop
    refine Finset.mem_image.mpr ⟨(s, o), hpair, ?_⟩
    by_cases h : s = Value.undef ∨ o = Value.undef
    · simp [binOpElem, h]
    · simp [binOpElem, h, hop]

/-- Witness for C1: on `DataSet({3, Undefined}, 4) + DataSet({7}, 4)` with
the integer fragment of `operator.add`, the pair `(3, 7)` contributes
`(3 + 7) mod 2^4 = 10` to the result. -/
theorem c1_witness :
    (Value.intv 3 ∈ (⟨{.intv 3, .undef}, 4⟩ : DataSet).data ∧
      Value.intv 7 ∈ (⟨{.intv 7}, 4⟩ : DataSet).data) ∧
    Value.intv ((10 : Int) % (2 ^ (4 : Nat) : Int)) ∈
      (DataSet.bin_op ⟨{.intv 3, .undef}, 4⟩ ⟨{.intv 7}, 4⟩ opAddInt).data := by
  refine ⟨⟨by decide, by decide⟩, ?_⟩
  have h := (c1_bin_op_pointwise ⟨{.intv 3, .undef}, 4⟩ ⟨{.intv 7}, 4⟩ opAddInt
      (.intv 3) (.intv 7) (by decide) (by decide)).2.1 3 7 10 rfl rfl rfl
  exact h

/-! ## C9: `add_use` on temporaries -/

/-- C9 (confirmed): `add_use` with a Tmp atom raises `KeyError` when
`tmp_definitions` has no entry for the index
(`self.tmp_definitions[atom.tmp_idx]`); with an entry it succeeds and
records `(code_loc, current_def)` in `tmp_uses[tmp_idx]`, leaving the rest
of the state unchanged. -/
theorem c9_add_tmp_use (s : RDState) (i : Nat) (cl : CodeLoc) :
    (s.tmp_definitions i = none →
      s.add_use (.tmp i) cl = .error .keyError) ∧
    (∀ ac, s.tmp_definitions i = some ac →
      s.add_use (.tmp i) cl =
        .ok { s with tmp_uses :=
          fun k => if k = i then insert (cl, ac) (s.tmp_uses k)
                   else s.tmp_uses k }) := by
  constructor
  · intro h
    simp [RDState.add_use, RDState.add_tmp_use, h]
  · intro ac h
    simp [RDState.add_use, RDState.add_tmp_use, h]

/-- Witness for C9: on the empty state, using `t0` raises `KeyError`; after
`t0` is defined ([stateT]), the use is recorded. -/
theorem c9_witness :
    (state0.tmp_definitions 0 = none ∧
      state0.add_use (.tmp 0) cl0 = .error .keyError) ∧
    (stateT.tmp_definitions 0 = some (.tmp 0, cl0) ∧
      stateT.add_use (.tmp 0) clA =
        .ok { stateT with tmp_uses :=
          fun k => if k = 0 then insert (clA, (.tmp 0, cl0)) (stateT.tmp_uses k)
                   else stateT.tmp_uses k }) :=
  ⟨⟨rfl, (c9_add_tmp_use state0 0 cl0).1 rfl⟩,
   ⟨rfl, (c9_add_tmp_use stateT 0 clA).2 (.tmp 0, cl0) rfl⟩⟩

/-! ## C10: `kill_and_add_definition` on temporaries ignores `data` -/

/-- C10 (confirmed): for a Tmp atom, `kill_and_add_definition` discards the
`data` argument entirely — the result is identical for every choice of
`data`, `tmp_definitions` maps the index to the pair `(atom, code_loc)`,
and no `Definition` is created (every other field of the state, including
both definition regions, is unchanged). -/
theorem c10_tmp_kill_ignores_data (s : RDState) (i : Nat) (cl : CodeLoc)
    (d d' : PyData) :
    s.kill_and_add_definition (.tmp i) cl d =
        s.kill_and_add_definition (.tmp i) cl d' ∧
    s.kill_and_add_definition (.tmp i) cl d =
      .ok { s with tmp_definitions :=
        fun k => if k = i then some (.tmp i, cl) else s.tmp_definitions k } :=
  ⟨rfl, rfl⟩

/-! ## C3: the VEX Store handler -/

/-- `kill_and_add_definition` on a MemoryLocation atom with a genuine
`DataSet` is exactly `_kill_and_add_memory_definition` (the constructor's
assert passes), as used by the Store loop. -/
theorem kill_and_add_definition_mem_ds (s : RDState) (addr : Int)
    (size : Nat) (cl : CodeLoc) (d : DataSet) :
    s.kill_and_add_definition (.mem addr size) cl (.ds d) =
      .ok (s.kill_and_add_memory_definition addr size ⟨.mem addr size, cl, d⟩) :=
  rfl

/-- An entry the Store loop has installed survives every further iteration:
a different concrete address never fully covers it (equal sizes), the same
address re-installs the very same entry, and `Undefined` or symbolic
addresses leave the region unchanged. -/
theorem storeStep_preserves {code_loc : CodeLoc} {size : Nat}
    {data : DataSet} {k : Int} {s : RDState}
    (h : (⟨k, size, ⟨.mem k size, code_loc, data⟩⟩ : KREntry) ∈
      s.memory_definitions.entries) (v : Value) :
    (⟨k, size, ⟨.mem k size, code_loc, data⟩⟩ : KREntry) ∈
      (storeStep code_loc size data s v).memory_definitions.entries := by
  cases v <;> simp only [storeStep] <;> try exact h
  rename_i a
  simp only [RDState.kill_and_add_memory_definition, KeyedRegion.set_object]
  by_cases hak : a = k
  · subst hak
    exact Finset.mem_insert_self _ _
  · refine Finset.mem_insert_of_mem (Finset.mem_filter.mpr ⟨h, ?_⟩)
    rw [coveredBy_same_size]
    exact fun hh => hak hh.symm

/-- Folding the Store loop over any remaining address collection keeps an
installed entry installed. -/
theorem foldl_storeStep_preserves {code_loc : CodeLoc} {size : Nat}
    {data : DataSet} {k : Int} (m : Multiset Value) :
    ∀ s : RDState,
      (⟨k, size, ⟨.mem k size, code_loc, data⟩⟩ : KREntry) ∈
        s.memory_definitions.entries →
      (⟨k, size, ⟨.mem k size, code_loc, data⟩⟩ : KREntry) ∈
        (Multiset.foldl (storeStep code_loc size data) s m).memory_definitions.entries := by
  induction m using Multiset.induction_on with
  | empty => intro s h; simpa using h
  | cons a m ih =>
      intro s h
      rw [Multiset.foldl_cons]
      exact ih _ (storeStep_preserves h a)

/-- Every concrete address occurring in the iterated collection ends up
with its MemoryLocation entry installed. -/
theorem foldl_storeStep_installs {code_loc : CodeLoc} {size : Nat}
    {data : DataSet} {k : Int} (m : Multiset Value)
    (hm : Value.intv k ∈ m) :
    ∀ s : RDState,
      (⟨k, size, ⟨.mem k size, code_loc, data⟩⟩ : KREntry) ∈
        (Multiset.foldl (storeStep code_loc size data) s m).memory_definitions.entries := by
  induction m using Multiset.induction_on with
  | empty => cases hm
  | cons a m ih =>
      intro s
      rw [Multiset.foldl_cons]
      by_cases ha : a = Value.intv k
      · subst ha
        refine foldl_storeStep_preserves m _ ?_
        simp only [storeStep, RDState.kill_and_add_memory_definition,
          KeyedRegion.set_object]
        exact Finset.mem_insert_self _ _
      · have : Value.intv k ∈ m := by
          rcases Multiset.mem_cons.mp hm with h | h
          · exact absurd h.symm ha
          · exact h
        exact ih this _

/-- C3 (confirmed): for a Store whose evaluated address set contains the
concrete addresses of the set (and possibly `Undefined`), the handler
installs a MemoryLocation definition carrying the evaluated data at every
concrete address — all of them are present in the final region
simultaneously, so none of the installs kills another — each is
retrievable by `get_objects_by_offset`, and an `Undefined` address element
leaves the state unchanged (logged and skipped). -/
theorem c3_handle_Store (s : RDState) (code_loc : CodeLoc)
    (addr data : DataSet) (size : Nat) (k : Int)
    (hk : Value.intv k ∈ addr.data) :
    (⟨k, size, ⟨.mem k size, code_loc, data⟩⟩ : KREntry) ∈
        (handle_Store s code_loc addr size data).memory_definitions.entries ∧
    (0 < size →
      (⟨.mem k size, code_loc, data⟩ : Definition) ∈
        (handle_Store s code_loc addr size data).memory_definitions.get_objects_by_offset k) ∧
    storeStep code_loc size data s .undef = s := by
  have hmem :
      (⟨k, size, ⟨.mem k size, code_loc, data⟩⟩ : KREntry) ∈
        (handle_Store s code_loc addr size data).memory_definitions.entries :=
    foldl_storeStep_installs addr.data.val (by simpa using hk) s
  refine ⟨hmem, ?_, rfl⟩
  intro hsize
  refine Finset.mem_image.mpr ⟨_, Finset.mem_filter.mpr ⟨hmem, ?_⟩, rfl⟩
  constructor
  · exact le_refl _
  · simpa using hsize

/-- Witness for C3: §8 scenario 3 — storing through the two-valued address
`{0x4000, 0x4008}` (plus an `Undefined` member) installs both
MemoryLocation definitions; neither kill removes the other. -/
theorem c3_witness :
    (Value.intv 0x4000 ∈ (⟨{.intv 0x4000, .intv 0x4008, .undef}, 64⟩ : DataSet).data ∧
      Value.intv 0x4008 ∈ (⟨{.intv 0x4000, .intv 0x4008, .undef}, 64⟩ : DataSet).data) ∧
    (⟨0x4000, 1, ⟨.mem 0x4000 1, cl0, ⟨{.intv 0x55}, 8⟩⟩⟩ : KREntry) ∈
      (handle_Store state0 cl0 ⟨{.intv 0x4000, .intv 0x4008, .undef}, 64⟩ 1
        ⟨{.intv 0x55}, 8⟩).memory_definitions.entries ∧
    (⟨0x4008, 1, ⟨.mem 0x4008 1, cl0, ⟨{.intv 0x55}, 8⟩⟩⟩ : KREntry) ∈
      (handle_Store state0 cl0 ⟨{.intv 0x4000, .intv 0x4008, .undef}, 64⟩ 1
        ⟨{.intv 0x55}, 8⟩).memory_definitions.entries := by
  refine ⟨⟨by decide, by decide⟩, ?_, ?_⟩
  · have h := (c3_handle_Store state0 cl0 ⟨{.intv 0x4000, .intv 0x4008, .undef}, 64⟩
      ⟨{.intv 0x55}, 8⟩ 1 0x4000 (by decide)).1
    exact h
  · have h := (c3_handle_Store state0 cl0 ⟨{.intv 0x4000, .intv 0x4008, .undef}, 64⟩
      ⟨{.intv 0x55}, 8⟩ 1 0x4008 (by decide)).1
    exact h

/-! ## C7: the comparison handlers -/

/-- The chosen first element is a member of the set. -/
theorem get_first_element_mem (d : DataSet) (hc : d.data.card = 1) :
    d.get_first_element hc ∈ d.data :=
  Finset.choose_mem _ _ _

/-- On a singleton `DataSet` the chosen first element is the element. -/
theorem get_first_element_of_eq {d : DataSet} {v : Value}
    (h : d.data = {v}) (hc : d.data.card = 1) :
    d.get_first_element hc = v := by
  have hm := get_first_element_mem d hc
  rw [h] at hm
  exact Finset.mem_singleton.mp hm

/-- On integer singletons `_handle_CmpEQ` returns the raw Python boolean
`e0 == e1`. -/
theorem handle_CmpEQ_int_singletons {e0 e1 : DataSet} {a b : Int}
    (h0 : e0.data = {.intv a}) (h1 : e1.data = {.intv b}) (sz : Nat) :
    handle_CmpEQ e0 e1 sz = .bool (decide (a = b)) := by
  have hc0 : e0.data.card = 1 := by rw [h0]; exact Finset.card_singleton _
  have hc1 : e1.data.card = 1 := by rw [h1]; exact Finset.card_singleton _
  unfold handle_CmpEQ
  rw [dif_pos ⟨hc0, hc1⟩]
  simp only [get_first_element_of_eq h0, get_first_element_of_eq h1,
    Value.isInt, Value.toInt, and_self, if_true, ite_true]

/-- On integer singletons `_handle_CmpNE` returns the raw Python boolean
`e0 != e1`. -/
theorem handle_CmpNE_int_singletons {e0 e1 : DataSet} {a b : Int}
    (h0 : e0.data = {.intv a}) (h1 : e1.data = {.intv b}) (sz : Nat) :
    handle_CmpNE e0 e1 sz = .bool (decide (a ≠ b)) := by
  have hc0 : e0.data.card = 1 := by rw [h0]; exact Finset.card_singleton _
  have hc1 : e1.data.card = 1 := by rw [h1]; exact Finset.card_singleton _
  unfold handle_CmpNE
  rw [dif_pos ⟨hc0, hc1⟩]
  simp only [get_first_element_of_eq h0, get_first_element_of_eq h1,
    Value.isInt, Value.toInt, and_self, if_true, ite_true]

/-- On integer singletons `_handle_CmpLT` returns the raw Python boolean
`e0 < e1`. -/
theorem handle_CmpLT_int_singletons {e0 e1 : DataSet} {a b : Int}
    (h0 : e0.data = {.intv a}) (h1 : e1.data = {.intv b}) (sz : Nat) :
    handle_CmpLT e0 e1 sz = .bool (decide (a < b)) := by
  have hc0 : e0.data.card = 1 := by rw [h0]; exact Finset.card_singleton _
  have hc1 : e1.data.card = 1 := by rw [h1]; exact Finset.card_singleton _
  unfold handle_CmpLT
  rw [dif_pos ⟨hc0, hc1⟩]
  simp only [get_first_element_of_eq h0, get_first_element_of_eq h1,
    Value.isInt, Value.toInt, and_self, if_true, ite_true]

/-- On integer singletons `_handle_CmpORD` returns the singleton tri-code
DataSet. -/
theorem handle_CmpORD_int_singletons {e0 e1 : DataSet} {a b : Int}
    (h0 : e0.data = {.intv a}) (h1 : e1.data = {.intv b}) (sz : Nat) :
    handle_CmpORD e0 e1 sz =
      (if a < b then .ds ⟨{.intv 0x08}, sz⟩
       else if a > b then .ds ⟨{.intv 0x04}, sz⟩
       else .ds ⟨{.intv 0x02}, sz⟩) := by
  have hc0 : e0.data.card = 1 := by rw [h0]; exact Finset.card_singleton _
  have hc1 : e1.data.card = 1 := by rw [h1]; exact Finset.card_singleton _
  unfold handle_CmpORD
  rw [dif_pos ⟨hc0, hc1⟩]
  simp only [get_first_element_of_eq h0, get_first_element_of_eq h1,
    Value.isInt, Value.toInt, and_self, if_true, ite_true]

/-- When either operand is not a singleton, all four handlers fall back to
`DataSet({True, False})`. -/
theorem cmp_fallback_of_not_singletons {e0 e1 : DataSet} (sz : Nat)
    (h : ¬ (e0.data.card = 1 ∧ e1.data.card = 1)) :
    handle_CmpEQ e0 e1 sz = cmpFallback sz ∧
    handle_CmpNE e0 e1 sz = cmpFallback sz ∧
    handle_CmpLT e0 e1 sz = cmpFallback sz ∧
    handle_CmpORD e0 e1 sz = cmpFallback sz := by
  unfold handle_CmpEQ handle_CmpNE handle_CmpLT handle_CmpORD
  rw [dif_neg h, dif_neg h, dif_neg h, dif_neg h]
  exact ⟨rfl, rfl, rfl, rfl⟩

/-- When both operands are singletons but one element fails Python's
`isinstance(_, (int, long))` test, all four handlers fall back to
`DataSet({True, False})`. -/
theorem cmp_fallback_of_not_int {e0 e1 : DataSet}
    (hc0 : e0.data.card = 1) (hc1 : e1.data.card = 1) (sz : Nat)
    (h : ¬ ((e0.get_first_element hc0).isInt ∧
            (e1.get_first_element hc1).isInt)) :
    handle_CmpEQ e0 e1 sz = cmpFallback sz ∧
    handle_CmpNE e0 e1 sz = cmpFallback sz ∧
    handle_CmpLT e0 e1 sz = cmpFallback sz ∧
    handle_CmpORD e0 e1 sz = cmpFallback sz := by
  unfold handle_CmpEQ handle_CmpNE handle_CmpLT handle_CmpORD
  rw [dif_pos ⟨hc0, hc1⟩, dif_pos ⟨hc0, hc1⟩, dif_pos ⟨hc0, hc1⟩,
    dif_pos ⟨hc0, hc1⟩]
  simp [if_neg h]

/-- C7 counterexample: `CmpEQ` on the integer singletons `{3}` and `{3}`
returns the raw Python boolean `True`, not a `DataSet` — refuting "the
handler returns a DataSet" for the singleton-integer case. -/
theorem c7_counterexample :
    handle_CmpEQ ⟨{.intv 3}, 64⟩ ⟨{.intv 3}, 64⟩ 1 = CmpResult.bool true ∧
    (handle_CmpEQ ⟨{.intv 3}, 64⟩ ⟨{.intv 3}, 64⟩ 1).isDS = false := by
  have h := @handle_CmpEQ_int_singletons ⟨{.intv 3}, 64⟩ ⟨{.intv 3}, 64⟩ 3 3
    rfl rfl 1
  rw [h]
  exact ⟨rfl, rfl⟩

/-- C7 (corrected): `CmpORD` always returns a `DataSet` (the singleton
tri-code `{0x08}` / `{0x04}` / `{0x02}` on integer singletons), but
`CmpEQ` / `CmpNE` / `CmpLT` return the *raw Python boolean* — not a
DataSet — when both operands are integer singletons; in every other case
(non-singleton operands, or a singleton element failing the integer test)
all four return `DataSet({true, false})`. -/
theorem c7_cmp_handlers (e0 e1 : DataSet) (a b : Int) (sz : Nat)
    (h0 : e0.data = {.intv a}) (h1 : e1.data = {.intv b}) :
    (handle_CmpEQ e0 e1 sz = .bool (decide (a = b)) ∧
     handle_CmpNE e0 e1 sz = .bool (decide (a ≠ b)) ∧
     handle_CmpLT e0 e1 sz = .bool (decide (a < b)) ∧
     handle_CmpORD e0 e1 sz =
       (if a < b then .ds ⟨{.intv 0x08}, sz⟩
        else if a > b then .ds ⟨{.intv 0x04}, sz⟩
        else .ds ⟨{.intv 0x02}, sz⟩)) ∧
    (∀ f0 f1 : DataSet, ¬ (f0.data.card = 1 ∧ f1.data.card = 1) →
      handle_CmpEQ f0 f1 sz = cmpFallback sz ∧
      handle_CmpNE f0 f1 sz = cmpFallback sz ∧
      handle_CmpLT f0 f1 sz = cmpFallback sz ∧
      handle_CmpORD f0 f1 sz = cmpFallback sz) ∧
    (∀ (f0 f1 : DataSet) (hc0 : f0.data.card = 1) (hc1 : f1.data.card = 1),
      ¬ ((f0.get_first_element hc0).isInt ∧
         (f1.get_first_element hc1).isInt) →
      handle_CmpEQ f0 f1 sz = cmpFallback sz ∧
      handle_CmpNE f0 f1 sz = cmpFallback sz ∧
      handle_CmpLT f0 f1 sz = cmpFallback sz ∧
      handle_CmpORD f0 f1 sz = cmpFallback sz) :=
  ⟨⟨handle_CmpEQ_int_singletons h0 h1 sz, handle_CmpNE_int_singletons h0 h1 sz,
    handle_CmpLT_int_singletons h0 h1 sz, handle_CmpORD_int_singletons h0 h1 sz⟩,
   fun f0 f1 h => @cmp_fallback_of_not_singletons f0 f1 sz h,
   fun f0 f1 hc0 hc1 h => @cmp_fallback_of_not_int f0 f1 hc0 hc1 sz h⟩

/-- Witness for C7: `CmpLT` on `{3}` and `{7}` returns the raw boolean
`True`, and `CmpORD` returns the singleton DataSet `{0x08}`. -/
theorem c7_witness :
    ((⟨{.intv 3}, 64⟩ : DataSet).data = {.intv 3} ∧
      (⟨{.intv 7}, 64⟩ : DataSet).data = {.intv 7}) ∧
    handle_CmpLT ⟨{.intv 3}, 64⟩ ⟨{.intv 7}, 64⟩ 8 = .bool (decide ((3 : Int) < 7)) ∧
    handle_CmpORD ⟨{.intv 3}, 64⟩ ⟨{.intv 7}, 64⟩ 8 =
      (if (3 : Int) < 7 then .ds ⟨{.intv 0x08}, 8⟩
       else if (3 : Int) > 7 then .ds ⟨{.intv 0x04}, 8⟩
       else .ds ⟨{.intv 0x02}, 8⟩) := by
  have h := (c7_cmp_handlers ⟨{.intv 3}, 64⟩ ⟨{.intv 7}, 64⟩ 3 7 8 rfl rfl).1
  exact ⟨⟨rfl, rfl⟩, h.2.2.1, h.2.2.2⟩

/-! ## C8: the AIL Register read handler -/

/-- C8 (code_bug): reading any AIL Register that is neither the stack nor
the frame pointer crashes — the handler's first action on that path,
`data = DataSet(set(), bits)`, violates `DataSet.__init__`'s
`assert len(data) >= 1` and the surrounding `try` only catches `KeyError`.
(Even with assertions disabled the path cannot complete: it passes the AIL
expression itself as the `data` of a `Definition`, violating that
constructor's `assert type(data) is DataSet`, and then calls
`data.compact()`, which `DataSet` does not define.)  The claimed
install-external-definition-and-re-read behaviour is never reached. -/
theorem c8_ail_register_crashes (arch : Arch) (s : RDState) (cl : CodeLoc)
    (reg_offset : Int) (bits : Nat)
    (hsp : reg_offset ≠ arch.sp_offset) (hbp : reg_offset ≠ arch.bp_offset) :
    ail_handle_Register arch s cl reg_offset bits = .error .assertionError := by
  unfold ail_handle_Register
  simp only [RDState.add_use, if_neg hsp, if_neg hbp,
    mkDataSet, Finset.card_empty]
  rfl

/-- Witness for C8: reading register offset 16 (rax-like) on the test
architecture raises `AssertionError`. -/
theorem c8_witness :
    ((16 : Int) ≠ arch0.sp_offset ∧ (16 : Int) ≠ arch0.bp_offset) ∧
    ail_handle_Register arch0 state0 cl0 16 64 = .error .assertionError :=
  ⟨⟨by decide, by decide⟩,
   c8_ail_register_crashes arch0 state0 cl0 16 64 (by decide) (by decide)⟩

/-! ## C2: the AIL Call handler -/

/-- C2 (code_bug): handling an AIL Call statement (here with a constant
call target) does not kill the caller-saved registers — it raises
`TypeError`, because `self.state.kill_definitions(ip, self._codeloc())`
passes two arguments to a method whose signature
`kill_definitions(self, atom, code_loc, data)` requires three.  The
caller-saved-register kills after it are unreachable; and by
`kill_definitions`'s own semantics (delegating to
`kill_and_add_definition`) a "killed" register would anyway retain a dummy
definition rather than an empty definition set. -/
theorem c2_ail_call_crashes (arch : Arch) (s : RDState) (cl : CodeLoc)
    (n : Int) (args : List AilExpr) (cc : CallingConv)
    (_hcc : cc.CALLER_SAVED_REGS ≠ []) :
    ail_handle_Call arch s cl (.const n) args (some cc) =
      .error .typeError := by
  unfold ail_handle_Call ail_expr_eval
  rfl

/-- Witness for C2: a call at [cl0] with caller-saved `{rax, rcx}` raises
`TypeError`. -/
theorem c2_witness :
    (⟨["rax", "rcx"]⟩ : CallingConv).CALLER_SAVED_REGS ≠ [] ∧
    ail_handle_Call arch0 state0 cl0 (.const 0x500000) []
        (some ⟨["rax", "rcx"]⟩) = .error .typeError :=
  ⟨by decide,
   c2_ail_call_crashes arch0 state0 cl0 0x500000 [] ⟨["rax", "rcx"]⟩
     (by decide)⟩

/-! ## C5: the merge algebra -/

/-- KeyedRegion merge (entry union) is commutative. -/
theorem kr_merge_comm (a b : KeyedRegion) : a.merge b = b.merge a := by
  simp [KeyedRegion.merge, Finset.union_comm]

/-- KeyedRegion merge is associative. -/
theorem kr_merge_assoc (a b c : KeyedRegion) :
    (a.merge b).merge c = a.merge (b.merge c) := by
  simp [KeyedRegion.merge, Finset.union_assoc]

/-- KeyedRegion merge is idempotent. -/
theorem kr_merge_self (a : KeyedRegion) : a.merge a = a := by
  cases a
  simp [KeyedRegion.merge]

/-- Uses merge is commutative. -/
theorem uses_merge_comm (a b : Uses) : a.merge b = b.merge a := by
  simp [Uses.merge, Finset.union_comm, kr_merge_comm]

/-- Uses merge is associative. -/
theorem uses_merge_assoc (a b c : Uses) :
    (a.merge b).merge c = a.merge (b.merge c) := by
  simp [Uses.merge, Finset.union_assoc, kr_merge_assoc]

/-- Uses merge is idempotent. -/
theorem uses_merge_self (a : Uses) : a.merge a = a := by
  cases a
  simp [Uses.merge, kr_merge_self]

/-- One merge step is associative on full states (the unmerged temporary
fields are taken from the left operand on both sides). -/
theorem rdstate_merge1_assoc (a b c : RDState) :
    (a.merge1 b).merge1 c = a.merge1 (b.merge1 c) := by
  simp [RDState.merge1, kr_merge_assoc, uses_merge_assoc,
    Finset.union_assoc]

/-- C5 counterexample: merge is not commutative on full states — the
temporaries are not merged (they are taken from `self`), so a state with a
temporary definition merged with the empty state differs from the empty
state merged with it. -/
theorem c5_counterexample :
    RDState.merge stateT [state0] ≠ RDState.merge state0 [stateT] := by
  intro h
  have h0 := congrArg (fun s : RDState => s.tmp_definitions 0) h
  simp [RDState.merge, RDState.merge1, RDState.copy, stateT, state0] at h0

/-- C5 (corrected): `merge` is associative and idempotent up to full state
equality, and commutative up to equality of the five merged substructures
(register definitions, memory definitions, register uses, memory uses, and
the dead-virgin set); full-state commutativity fails because temporaries
are not merged but inherited from `self` ([c5_counterexample]). -/
theorem c5_merge_algebra (a b c : RDState) :
    ((a.merge [b]).register_definitions = (b.merge [a]).register_definitions ∧
     (a.merge [b]).memory_definitions = (b.merge [a]).memory_definitions ∧
     (a.merge [b]).register_uses = (b.merge [a]).register_uses ∧
     (a.merge [b]).memory_uses = (b.merge [a]).memory_uses ∧
     (a.merge [b]).dead_virgin_definitions =
       (b.merge [a]).dead_virgin_definitions) ∧
    (a.merge [b]).merge [c] = a.merge [b.merge [c]] ∧
    a.merge [a] = a := by
  refine ⟨⟨?_, ?_, ?_, ?_, ?_⟩, ?_, ?_⟩
  · simp [RDState.merge, RDState.merge1, RDState.copy, kr_merge_comm]
  · simp [RDState.merge, RDState.merge1, RDState.copy, kr_merge_comm]
  · simp [RDState.merge, RDState.merge1, RDState.copy, uses_merge_comm]
  · simp [RDState.merge, RDState.merge1, RDState.copy, uses_merge_comm]
  · simp [RDState.merge, RDState.merge1, RDState.copy, Finset.union_comm]
  · simp only [RDState.merge, RDState.copy, List.foldl]
    exact rdstate_merge1_assoc a b c
  · simp only [RDState.merge, RDState.copy, List.foldl]
    cases a
    simp [RDState.merge1, kr_merge_self, uses_merge_self]

/-! ## C4: copy independence -/

/-- A successful dict lookup exposes its binding. -/
theorem alookup_mem :
    ∀ {l : List (Definition × Nat)} {d : Definition} {r : Nat},
      alookup l d = some r → (d, r) ∈ l := by
  intro l
  induction l with
  | nil => intro d r h; cases h
  | cons p rest ih =>
      intro d r h
      obtain ⟨k, r'⟩ := p
      simp only [alookup] at h
      by_cases hk : k = d
      · subst hk
        rw [if_pos rfl] at h
        cases h
        exact List.mem_cons_self _ _
      · rw [if_neg hk] at h
        exact List.mem_cons_of_mem _ (ih h)

/-- C4 counterexample: `copy()` is not observationally independent.  The
original state [stateRef0] records one use `{clA}` of [d0]; after
`add_use(d0, clB)` is applied to the *copy*'s register `Uses`, reading the
*original*'s `get_uses(d0)` yields `{clA, clB}` — the shallow
`dict.copy()` in `Uses.copy` shares the per-definition use-site set
objects, so the mutation of the copy is visible through the original. -/
theorem c4_counterexample :
    UsesRef.get_uses heap0 stateRef0.register_uses d0 = {clA} ∧
    UsesRef.get_uses
        (UsesRef.add_use heap0 (RDStateRef.copy stateRef0).register_uses d0 clB).1
        stateRef0.register_uses d0 = {clA, clB} ∧
    ({clA, clB} : Finset CodeLoc) ≠ {clA} := by
  refine ⟨by decide, by decide, by decide⟩

/-- C4 (corrected): after `state.copy()`, a mutation of the copy through
`Uses.add_use` leaves the original's observable `get_uses` unchanged only
when the definition has no entry in the (shared-value) dict yet — the
`defaultdict` then materialises a fresh set private to the copy; when the
definition is already recorded, the same `add_use` on the copy mutates the
shared set object in place and the new code location becomes visible
through the original's `get_uses`. -/
theorem c4_copy_sharing (h : SetHeap) (u : UsesRef) (d : Definition)
    (cl : CodeLoc) :
    (∀ d', alookup u.uses_by_definition d = none → u.validIn h →
      UsesRef.get_uses (UsesRef.add_use h u.copy d cl).1 u d' =
        UsesRef.get_uses h u d') ∧
    (∀ r, alookup u.uses_by_definition d = some r →
      UsesRef.get_uses (UsesRef.add_use h u.copy d cl).1 u d =
        insert cl (UsesRef.get_uses h u d)) := by
  constructor
  · intro d' hnone hvalid
    unfold UsesRef.add_use UsesRef.copy UsesRef.get_uses
    simp only [hnone]
    cases halo : alookup u.uses_by_definition d' with
    | none => rfl
    | some r =>
        have hr : r < h.next := hvalid _ (alookup_mem halo)
        simp only [SetHeap.alloc]
        exact Function.update_noteq (Nat.ne_of_lt hr) _ _
  · intro r hsome
    unfold UsesRef.add_use UsesRef.copy UsesRef.get_uses
    simp only [hsome]
    simp only [SetHeap.write]
    exact Function.update_same _ _ _

/-- Witness for C4 (the aliasing branch): for the concrete fixtures,
`add_use(d0, clB)` on the copy makes `clB` visible through the original. -/
theorem c4_witness :
    alookup usesR0.uses_by_definition d0 = some 0 ∧
    UsesRef.get_uses (UsesRef.add_use heap0 usesR0.copy d0 clB).1 usesR0 d0 =
      insert clB (UsesRef.get_uses heap0 usesR0 d0) :=
  ⟨by decide, (c4_copy_sharing heap0 usesR0 d0 clB).2 0 (by decide)⟩

/-! ## C6: the iteration bound of the fixpoint driver -/

/-- A driver step never changes the analysed block set or the configured
cap. -/
theorem driverStep_same (d : DriverState) :
    (driverStep d).nodes = d.nodes ∧
    (driverStep d).max_iterations = d.max_iterations := by
  unfold driverStep
  cases d.worklist with
  | nil => exact ⟨rfl, rfl⟩
  | cons n rest =>
      dsimp only
      by_cases hskip : n ∈ d.no_revisit ∨ n ∉ d.nodes
      · rw [if_pos hskip]; exact ⟨rfl, rfl⟩
      · rw [if_neg hskip]
        simp only [runOnNode]
        by_cases hrev : d.node_iterations n + 1 < d.max_iterations <;>
          simp [hrev]

/-- Iterating the driver never changes the block set or the cap. -/
theorem driverRun_same (fuel : Nat) (d : DriverState) :
    (driverRun fuel d).nodes = d.nodes ∧
    (driverRun fuel d).max_iterations = d.max_iterations := by
  induction fuel generalizing d with
  | zero => exact ⟨rfl, rfl⟩
  | succ fuel ih =>
      have hs := driverStep_same d
      have hr := ih (driverStep d)
      exact ⟨hr.1.trans hs.1, hr.2.trans hs.2⟩

/-- Each driver step preserves the invariant. -/
theorem driverStep_inv {d : DriverState} (hd : DriverInv d) :
    DriverInv (driverStep d) := by
  obtain ⟨hcalls, hnodes⟩ := hd
  unfold driverStep
  cases d.worklist with
  | nil => exact ⟨hcalls, hnodes⟩
  | cons n rest =>
      dsimp only
      by_cases hskip : n ∈ d.no_revisit ∨ n ∉ d.nodes
      · rw [if_pos hskip]
        exact ⟨hcalls, hnodes⟩
      · rw [if_neg hskip]
        push_neg at hskip
        obtain ⟨hnr, hin⟩ := hskip
        have hlt : d.node_iterations n < d.max_iterations := (hnodes n hin).2 hnr
        have hupd_le : ∀ m ∈ d.nodes,
            Function.update d.node_iterations n (d.node_iterations n + 1) m ≤
              d.max_iterations := by
          intro m hm
          by_cases hmn : m = n
          · subst hmn; rw [Function.update_same]; omega
          · rw [Function.update_noteq hmn]; exact (hnodes m hm).1
        have hsum : d.calls + 1 = ∑ x ∈ d.nodes,
            Function.update d.node_iterations n (d.node_iterations n + 1) x := by
          rw [Finset.sum_update_of_mem hin, hcalls,
            Finset.sum_eq_sum_diff_singleton_add hin d.node_iterations]
          omega
        simp only [runOnNode, decide_eq_true_eq]
        by_cases hrev : d.node_iterations n + 1 < d.max_iterations
        · rw [if_pos hrev]
          refine ⟨hsum, ?_⟩
          intro m hm
          dsimp only at hm ⊢
          refine ⟨hupd_le m hm, fun hmnr => ?_⟩
          by_cases hmn : m = n
          · subst hmn; rw [Function.update_same]; exact hrev
          · rw [Function.update_noteq hmn]; exact (hnodes m hm).2 hmnr
        · rw [if_neg hrev]
          refine ⟨hsum, ?_⟩
          intro m hm
          dsimp only at hm ⊢
          have hmn : m ∉ insert n d.no_revisit → m ≠ n ∧ m ∉ d.no_revisit := by
            intro hmi
            exact ⟨fun he => hmi (by rw [he]; exact Finset.mem_insert_self _ _),
              fun hmm => hmi (Finset.mem_insert_of_mem hmm)⟩
          refine ⟨hupd_le m hm, fun hmi => ?_⟩
          obtain ⟨hne, hmm⟩ := hmn hmi
          rw [Function.update_noteq hne]
          exact (hnodes m hm).2 hmm

/-- Iterating the driver preserves the invariant. -/
theorem driverRun_inv (fuel : Nat) {d : DriverState} (hd : DriverInv d) :
    DriverInv (driverRun fuel d) := by
  induction fuel generalizing d with
  | zero => exact hd
  | succ fuel ih => exact ih (driverStep_inv hd)

/-- The invariant bounds the number of `_run_on_node` calls. -/
theorem DriverInv.calls_le {d : DriverState} (hd : DriverInv d) :
    d.calls ≤ d.max_iterations * d.nodes.card := by
  rw [hd.1]
  calc ∑ n ∈ d.nodes, d.node_iterations n
      ≤ ∑ _n ∈ d.nodes, d.max_iterations :=
        Finset.sum_le_sum (fun n hn => (hd.2 n hn).1)
    _ = d.max_iterations * d.nodes.card := by
        rw [Finset.sum_const, smul_eq_mul, mul_comm]

/-- With a positive cap the initial state satisfies the invariant. -/
theorem driverInit_inv (nodes : Finset Nat) (succs : Nat → List Nat)
    (m : Nat) (wl : List Nat) (hm : 1 ≤ m) :
    DriverInv (driverInit nodes succs m wl) := by
  refine ⟨by simp [driverInit], ?_⟩
  intro n _hn
  exact ⟨Nat.zero_le _, fun _ => hm⟩

/-- C6 counterexample: with `max_iterations = 0` the driver still visits a
scheduled node once — the cap is only discovered inside `_run_on_node`,
after the counter has been incremented — so the total of 1 call exceeds
`max_iterations × |blocks| = 0`. -/
theorem c6_counterexample :
    (driverInit {0} (fun _ => []) 0 [0]).max_iterations *
        (driverInit {0} (fun _ => []) 0 [0]).nodes.card <
      (driverRun 2 (driverInit {0} (fun _ => []) 0 [0])).calls := by
  decide

/-- C6 (corrected): for every configured `max_iterations ≥ 1`, the driver
performs at most `max_iterations × |blocks|` calls to `_run_on_node`
however long it runs (each node is visited at most `max_iterations` times);
and whenever a node's incremented iteration counter has reached the cap,
`_run_on_node` reports the node as no longer revisitable.  (With
`max_iterations = 0` each initially scheduled node is still visited once,
see [c6_counterexample].) -/
theorem c6_iteration_bound (nodes : Finset Nat) (succs : Nat → List Nat)
    (m : Nat) (wl : List Nat) (fuel : Nat) (hm : 1 ≤ m) :
    (driverRun fuel (driverInit nodes succs m wl)).calls ≤ m * nodes.card ∧
    (∀ (d : DriverState) (n : Nat),
      d.max_iterations ≤ d.node_iterations n + 1 → (runOnNode d n).1 = false) := by
  constructor
  · have hinv := driverRun_inv fuel (driverInit_inv nodes succs m wl hm)
    have hle := hinv.calls_le
    have hsame := driverRun_same fuel (driverInit nodes succs m wl)
    rw [hsame.1, hsame.2] at hle
    exact hle
  · intro d n h
    simp only [runOnNode, decide_eq_false_iff_not]
    omega

/-- Witness for C6: two blocks, cap 3, arbitrary rescheduling — after any
number of steps at most `3 × 2` calls were made. -/
theorem c6_witness :
    1 ≤ 3 ∧
    (driverRun 9 (driverInit {10, 20} (fun _ => [10, 20]) 3 [10])).calls ≤
      3 * ({10, 20} : Finset Nat).card :=
  ⟨by decide,
   (c6_iteration_bound {10, 20} (fun _ => [10, 20]) 3 [10] 9 (by decide)).1⟩

end RDA
